import Mathlib

set_option maxRecDepth 8192

/-
Verification of the button input subsystem of a badger2040 e-ink badge
firmware (src/main.py, class BadgeButtons).  The subsystem keeps a
fixed-capacity event queue in a flat pre-allocated array of unsigned
integers holding (timestamp, pin) pairs back to back, filled from a hard
interrupt handler (pressed) and drained by a scheduled callback (dispatch)
that debounces per button and invokes registered handlers.
-/

namespace Badge

/-- Modulus of the MicroPython millisecond tick counter: the rp2 port keeps
ticks in a 30-bit small integer, so time.ticks_ms wraps at 2^30. -/
def TICKS_PERIOD : Int := 1073741824

/-- The MicroPython builtin time.ticks_diff, the wrap-safe signed
difference of two tick values: the result is in
[-TICKS_PERIOD/2, TICKS_PERIOD/2). -/
def ticks_diff (a b : Nat) : Int :=
  ((a : Int) - (b : Int) + TICKS_PERIOD / 2) % TICKS_PERIOD - TICKS_PERIOD / 2

/-- badger2040 button pin numbers (platform constants). -/
def BUTTON_A : Nat := 12

/-- badger2040 BUTTON_B pin number. -/
def BUTTON_B : Nat := 13

/-- badger2040 BUTTON_C pin number. -/
def BUTTON_C : Nat := 14

/-- badger2040 BUTTON_UP pin number. -/
def BUTTON_UP : Nat := 15

/-- badger2040 BUTTON_DOWN pin number. -/
def BUTTON_DOWN : Nat := 11

/-- The mutable state captured by the BadgeButtons closures in
src/main.py: the bounce window, the flat queue array with its fill
position, the last_ticks dictionary and the handler dictionary
(self dot _handlers).  Dictionaries are modelled as functions to Option. -/
structure BadgeButtons where
  bounce_ms : Int
  queue : List Nat
  queue_pos : Nat
  last_ticks : Nat → Option Nat
  handlers : Nat → Option Nat

/-- BadgeButtons.__init__(bounce_ms=250, queue_len=8): a zeroed array of
queue_len * 2 unsigned slots, queue_pos = 0, empty dictionaries. -/
def badgeInit (bounce_ms : Int) (queue_len : Nat) : BadgeButtons :=
  { bounce_ms := bounce_ms
    queue := List.replicate (queue_len * 2) 0
    queue_pos := 0
    last_ticks := fun _ => none
    handlers := fun _ => none }

/-- Python dictionary assignment d[k] = v on an Option-valued map. -/
def dUpdate (f : Nat → Option Nat) (k v : Nat) : Nat → Option Nat :=
  fun x => if x = k then some v else f x

/-- The interrupt producer pressed(btn) from src/main.py lines 38-48,
called with the current tick count t and the pin of the pressed button:
if queue_pos < len(queue) it stores t and the pin at queue_pos, advances
queue_pos by 2 and schedules the dispatcher; otherwise the event is
dropped.  The two returned booleans record whether the entry was pushed
and whether schedule(dispatch, None) was called. -/
def pressed (s : BadgeButtons) (t : Nat) (pin : Nat) : BadgeButtons × Bool × Bool :=
  if s.queue_pos < s.queue.length then
    ({ s with
        queue := (s.queue.set s.queue_pos t).set (s.queue_pos + 1) pin
        queue_pos := s.queue_pos + 2 }, true, true)
  else
    (s, false, false)

/-- The slice assignment queue[:-2] = queue[2:] from src/main.py line 64:
every slot moves down two places and the last pair keeps its old value
(a stale duplicate of the final slots). -/
def shiftQueue (q : List Nat) : List Nat :=
  q.drop 2 ++ q.drop (q.length - 2)

/-- The critical section of one dispatch iteration (src/main.py lines
62-65) after the head pair has been read: shift the queue down and
retreat queue_pos by 2. -/
def popState (s : BadgeButtons) : BadgeButtons :=
  { s with queue := shiftQueue s.queue, queue_pos := s.queue_pos - 2 }

/-- The debounce-and-deliver tail of one dispatch iteration (src/main.py
lines 68-82) for a drained pair (ticks, pin): look up last_ticks[pin]
(KeyError means always accept); on a hit, if ticks_diff(ticks, last) is
below bounce_ms the event is bounced (continue) without touching
last_ticks; otherwise set last_ticks[pin] = ticks and, if a handler is
registered for pin, invoke it.  Returns the new last_ticks map, whether
the event was accepted, and the invoked handler if any. -/
def handleEvent (bounce : Int) (lt hs : Nat → Option Nat) (ticks pin : Nat) :
    (Nat → Option Nat) × Bool × Option Nat :=
  match lt pin with
  | some last =>
      if ticks_diff ticks last < bounce then (lt, false, none)
      else (dUpdate lt pin ticks, true, hs pin)
  | none => (dUpdate lt pin ticks, true, hs pin)

/-- Trace record of one dispatch iteration: the drained pair, whether it
passed the debounce filter, and the handler invoked for it (none when it
bounced or no handler was registered). -/
structure DEvent where
  ticks : Nat
  pin : Nat
  accepted : Bool
  invoked : Option Nat
  deriving DecidableEq

/-- The dispatch loop of src/main.py lines 54-82, with explicit fuel for
structural termination (each iteration strictly decreases queue_pos, so
fuel = queue_pos always suffices): while queue_pos is nonzero, read
queue[0] and queue[1], shift the queue, and run the debounce tail.
Returns the final state and the trace of iterations, oldest first. -/
def dispatchAux : Nat → BadgeButtons → BadgeButtons × List DEvent
  | 0, s => (s, [])
  | fuel + 1, s =>
      if s.queue_pos = 0 then (s, [])
      else
        let ticks := s.queue.getD 0 0
        let pin := s.queue.getD 1 0
        let s1 := popState s
        let r := handleEvent s1.bounce_ms s1.last_ticks s1.handlers ticks pin
        let rest := dispatchAux fuel { s1 with last_ticks := r.1 }
        (rest.1, ⟨ticks, pin, r.2.1, r.2.2⟩ :: rest.2)

/-- dispatch(arg): run the drain loop to completion.  queue_pos strictly
decreases at every iteration, so the current queue_pos is enough fuel. -/
def dispatch (s : BadgeButtons) : BadgeButtons × List DEvent :=
  dispatchAux s.queue_pos s

/-- Fold of pressed over a list of (timestamp, pin) events, collecting
for each the (pushed, scheduled) flag pair. -/
def pressedAll : BadgeButtons → List (Nat × Nat) → BadgeButtons × List (Bool × Bool)
  | s, [] => (s, [])
  | s, (t, p) :: es =>
      let r := pressed s t p
      let rest := pressedAll r.1 es
      (rest.1, r.2 :: rest.2)

/-- Reference fold of the debounce tail over a list of drained pairs:
what dispatch computes once the queue mechanics are peeled away. -/
def procEvents : Int → (Nat → Option Nat) → (Nat → Option Nat) →
    List (Nat × Nat) → (Nat → Option Nat) × List DEvent
  | _, lt, _, [] => (lt, [])
  | b, lt, hs, (t, p) :: es =>
      let r := handleEvent b lt hs t p
      let rest := procEvents b r.1 hs es
      (rest.1, ⟨t, p, r.2.1, r.2.2⟩ :: rest.2)

/-- BadgeButtons.__setitem__(key, value): handler registration. -/
def setitem (s : BadgeButtons) (k v : Nat) : BadgeButtons :=
  { s with handlers := dUpdate s.handlers k v }

/-- BadgeButtons.__delitem__(key): del self._handlers[key].  A Python
del on a missing dictionary key raises KeyError, modelled as none. -/
def delitem (s : BadgeButtons) (k : Nat) : Option BadgeButtons :=
  match s.handlers k with
  | some _ => some { s with handlers := fun x => if x = k then none else s.handlers x }
  | none => none

/-- Result of BadgeButtons.__getitem__(key): either the stored handler or
the KeyError that the dictionary lookup raises for a missing key. -/
inductive Lookup where
  | found (handler : Nat)
  | keyError
  deriving DecidableEq

/-- BadgeButtons.__getitem__(key): return self._handlers[key], which
raises KeyError when no handler is registered for key. -/
def getitem (s : BadgeButtons) (k : Nat) : Lookup :=
  match s.handlers k with
  | some h => Lookup.found h
  | none => Lookup.keyError

/-- The live queue entries written back to back: (t, p) becomes t, p. -/
def entriesFlat : List (Nat × Nat) → List Nat
  | [] => []
  | e :: es => e.1 :: e.2 :: entriesFlat es

/-- Queue representation invariant: the array has its fixed allocated
length 2 * cap, queue_pos is twice the number of pending events (hence
even) and within bounds, and the slots below queue_pos hold exactly the
pending (timestamp, pin) pairs in arrival order. -/
def QInv (s : BadgeButtons) (cap : Nat) (es : List (Nat × Nat)) : Prop :=
  s.queue.length = 2 * cap ∧ s.queue_pos = 2 * es.length ∧
  s.queue_pos ≤ s.queue.length ∧ s.queue.take s.queue_pos = entriesFlat es

instance (s : BadgeButtons) (cap : Nat) (es : List (Nat × Nat)) :
    Decidable (QInv s cap es) := by
  unfold QInv
  exact inferInstance

/-! Helper lemmas about the list operations backing the flat queue. -/

theorem take_set_pair : ∀ (i : Nat) (q : List Nat) (t p : Nat), i + 2 ≤ q.length →
    ((q.set i t).set (i + 1) p).take (i + 2) = q.take i ++ [t, p] := by
  intro i
  induction i with
  | zero =>
    intro q t p h
    match q with
    | [] => simp at h
    | [a] => simp at h
    | a :: b :: rest => simp [List.set]
  | succ n ih =>
    intro q t p h
    match q with
    | [] => simp at h
    | a :: q' =>
      have h' : n + 2 ≤ q'.length := by
        simp only [List.length_cons] at h
        omega
      show ((a :: q'.set n t).set (n + 2) p).take (n + 3) = (a :: q'.take n) ++ [t, p]
      show (a :: (q'.set n t).set (n + 1) p).take (n + 3) = (a :: q'.take n) ++ [t, p]
      rw [List.take_succ_cons, ih q' t p h']
      rfl

theorem shiftQueue_length (q : List Nat) (h : 2 ≤ q.length) :
    (shiftQueue q).length = q.length := by
  simp only [shiftQueue, List.length_append, List.length_drop]
  omega

theorem queue_decomp (q : List Nat) (k : Nat) (x y : Nat) (l : List Nat)
    (h : q.take (k + 2) = x :: y :: l) : ∃ q', q = x :: y :: q' ∧ q'.take k = l := by
  match q with
  | [] => simp at h
  | [a] =>
    rw [show k + 2 = (k + 1) + 1 from rfl, List.take_succ_cons] at h
    simp at h
  | a :: b :: rest =>
    rw [show k + 2 = (k + 1) + 1 from rfl, List.take_succ_cons, List.take_succ_cons] at h
    injection h with h1 h
    injection h with h2 h3
    exact ⟨rest, by rw [h1, h2], h3⟩

theorem entriesFlat_append (xs ys : List (Nat × Nat)) :
    entriesFlat (xs ++ ys) = entriesFlat xs ++ entriesFlat ys := by
  induction xs with
  | nil => rfl
  | cons e xs ih => simp [entriesFlat, ih]

theorem entriesFlat_length (es : List (Nat × Nat)) :
    (entriesFlat es).length = 2 * es.length := by
  induction es with
  | nil => rfl
  | cons e es ih => simp [entriesFlat, ih]; omega

/-! Lemmas about the interrupt producer. -/

theorem pressed_push (s : BadgeButtons) (cap : Nat) (es : List (Nat × Nat)) (t p : Nat)
    (hq : QInv s cap es) (hlt : es.length < cap) :
    pressed s t p =
      ({ s with
          queue := (s.queue.set s.queue_pos t).set (s.queue_pos + 1) p
          queue_pos := s.queue_pos + 2 }, true, true) ∧
    QInv (pressed s t p).1 cap (es ++ [(t, p)]) := by
  obtain ⟨h1, h2, h3, h4⟩ := hq
  have hguard : s.queue_pos < s.queue.length := by omega
  have heq : pressed s t p =
      ({ s with
          queue := (s.queue.set s.queue_pos t).set (s.queue_pos + 1) p
          queue_pos := s.queue_pos + 2 }, true, true) := by
    unfold pressed
    rw [if_pos hguard]
  refine ⟨heq, ?_⟩
  rw [heq]
  refine ⟨by simp [h1], ?_, ?_, ?_⟩
  · simp [h2, List.length_append]
    omega
  · simp [h1, h2]
    omega
  · show ((s.queue.set s.queue_pos t).set (s.queue_pos + 1) p).take (s.queue_pos + 2)
      = entriesFlat (es ++ [(t, p)])
    rw [take_set_pair s.queue_pos s.queue t p (by omega), h4,
      entriesFlat_append]
    rfl

theorem pressed_full (s : BadgeButtons) (t p : Nat) (h : s.queue.length ≤ s.queue_pos) :
    pressed s t p = (s, false, false) := by
  unfold pressed
  rw [if_neg (by omega)]

theorem pressedAll_ok : ∀ (es es0 : List (Nat × Nat)) (s : BadgeButtons) (cap : Nat),
    QInv s cap es0 → es0.length + es.length ≤ cap →
    QInv (pressedAll s es).1 cap (es0 ++ es) ∧
    (pressedAll s es).2 = List.replicate es.length (true, true) ∧
    (pressedAll s es).1.last_ticks = s.last_ticks ∧
    (pressedAll s es).1.handlers = s.handlers ∧
    (pressedAll s es).1.bounce_ms = s.bounce_ms := by
  intro es
  induction es with
  | nil =>
    intro es0 s cap hq hle
    simpa [pressedAll] using hq
  | cons e es ih =>
    intro es0 s cap hq hle
    obtain ⟨t, p⟩ := e
    obtain ⟨heq, hq'⟩ := pressed_push s cap es0 t p hq (by simp at hle; omega)
    have hstep : pressedAll s ((t, p) :: es) =
        ((pressedAll (pressed s t p).1 es).1,
          (pressed s t p).2 :: (pressedAll (pressed s t p).1 es).2) := rfl
    have hlen : (es0 ++ [(t, p)]).length + es.length ≤ cap := by
      simp at hle ⊢
      omega
    obtain ⟨ih1, ih2, ih3, ih4, ih5⟩ := ih (es0 ++ [(t, p)]) (pressed s t p).1 cap hq' hlen
    rw [hstep]
    refine ⟨by simpa using ih1, ?_, ?_, ?_, ?_⟩
    · show (pressed s t p).2 :: (pressedAll (pressed s t p).1 es).2
        = List.replicate (es.length + 1) (true, true)
      rw [List.replicate_succ, ih2, heq]
    · rw [ih3, heq]
    · rw [ih4, heq]
    · rw [ih5, heq]

theorem pressedAll_full : ∀ (es : List (Nat × Nat)) (s : BadgeButtons),
    s.queue.length ≤ s.queue_pos →
    pressedAll s es = (s, List.replicate es.length (false, false)) := by
  intro es
  induction es with
  | nil => intro s h; rfl
  | cons e es ih =>
    intro s h
    obtain ⟨t, p⟩ := e
    have hstep : pressedAll s ((t, p) :: es) =
        ((pressedAll (pressed s t p).1 es).1,
          (pressed s t p).2 :: (pressedAll (pressed s t p).1 es).2) := rfl
    rw [hstep, pressed_full s t p h, ih s h]
    simp [List.replicate]

/-! Lemmas about the dispatcher loop. -/

theorem dispatchAux_succ (f : Nat) (s : BadgeButtons) (h : s.queue_pos ≠ 0) :
    dispatchAux (f + 1) s =
      ((dispatchAux f
          { s with
              queue := shiftQueue s.queue
              queue_pos := s.queue_pos - 2
              last_ticks := (handleEvent s.bounce_ms s.last_ticks s.handlers
                (s.queue.getD 0 0) (s.queue.getD 1 0)).1 }).1,
        ⟨s.queue.getD 0 0, s.queue.getD 1 0,
          (handleEvent s.bounce_ms s.last_ticks s.handlers
            (s.queue.getD 0 0) (s.queue.getD 1 0)).2.1,
          (handleEvent s.bounce_ms s.last_ticks s.handlers
            (s.queue.getD 0 0) (s.queue.getD 1 0)).2.2⟩ ::
        (dispatchAux f
          { s with
              queue := shiftQueue s.queue
              queue_pos := s.queue_pos - 2
              last_ticks := (handleEvent s.bounce_ms s.last_ticks s.handlers
                (s.queue.getD 0 0) (s.queue.getD 1 0)).1 }).2) := by
  conv_lhs => unfold dispatchAux
  rw [if_neg h]
  rfl

theorem dispatch_drain : ∀ (es : List (Nat × Nat)) (fuel : Nat) (s : BadgeButtons)
    (cap : Nat), QInv s cap es → es.length ≤ fuel →
    (dispatchAux fuel s).2 = (procEvents s.bounce_ms s.last_ticks s.handlers es).2 ∧
    (dispatchAux fuel s).1.last_ticks
      = (procEvents s.bounce_ms s.last_ticks s.handlers es).1 ∧
    (dispatchAux fuel s).1.queue_pos = 0 ∧
    (dispatchAux fuel s).1.queue.length = 2 * cap ∧
    (dispatchAux fuel s).1.handlers = s.handlers ∧
    (dispatchAux fuel s).1.bounce_ms = s.bounce_ms := by
  intro es
  induction es with
  | nil =>
    intro fuel s cap hq hle
    obtain ⟨h1, h2, h3, h4⟩ := hq
    have hz : s.queue_pos = 0 := by simpa using h2
    have hstop : dispatchAux fuel s = (s, []) := by
      cases fuel with
      | zero => rfl
      | succ f =>
        conv_lhs => unfold dispatchAux
        rw [if_pos hz]
    rw [hstop]
    exact ⟨rfl, rfl, hz, h1, rfl, rfl⟩
  | cons e es ih =>
    intro fuel s cap hq hle
    obtain ⟨t, p⟩ := e
    obtain ⟨h1, h2, h3, h4⟩ := hq
    simp only [List.length_cons] at h2
    cases fuel with
    | zero => simp at hle
    | succ f =>
      have hnz : s.queue_pos ≠ 0 := by omega
      have htake : s.queue.take (2 * es.length + 2) = t :: p :: entriesFlat es := by
        rw [show 2 * es.length + 2 = s.queue_pos by omega, h4]
        rfl
      obtain ⟨q', hqeq, hqtake⟩ := queue_decomp s.queue (2 * es.length) t p
        (entriesFlat es) htake
      have hq'len : q'.length + 2 = 2 * cap := by
        rw [hqeq] at h1
        simpa using h1
      have hget0 : s.queue.getD 0 0 = t := by rw [hqeq]; rfl
      have hget1 : s.queue.getD 1 0 = p := by rw [hqeq]; rfl
      have hshift : shiftQueue s.queue = q' ++ s.queue.drop (s.queue.length - 2) := by
        rw [shiftQueue, hqeq]
        rfl
      have hstep := dispatchAux_succ f s hnz
      rw [hget0, hget1] at hstep
      set r := handleEvent s.bounce_ms s.last_ticks s.handlers t p with hr
      set s2 : BadgeButtons :=
        { s with
            queue := shiftQueue s.queue
            queue_pos := s.queue_pos - 2
            last_ticks := r.1 } with hs2
      have hq2 : QInv s2 cap es := by
        refine ⟨?_, ?_, ?_, ?_⟩
        · show (shiftQueue s.queue).length = 2 * cap
          rw [shiftQueue_length s.queue (by omega)]
          exact h1
        · show s.queue_pos - 2 = 2 * es.length
          omega
        · show s.queue_pos - 2 ≤ (shiftQueue s.queue).length
          rw [shiftQueue_length s.queue (by omega)]
          omega
        · show (shiftQueue s.queue).take (s.queue_pos - 2) = entriesFlat es
          rw [hshift, show s.queue_pos - 2 = 2 * es.length by omega,
            List.take_append_of_le_length (by omega), hqtake]
      obtain ⟨ih1, ih2, ih3, ih4, ih5, ih6⟩ := ih f s2 cap hq2 (by simpa using Nat.lt_succ_iff.mp (Nat.lt_of_lt_of_le (Nat.lt_succ_self _) hle))
      have hproc : procEvents s.bounce_ms s.last_ticks s.handlers ((t, p) :: es) =
          ((procEvents s.bounce_ms r.1 s.handlers es).1,
            ⟨t, p, r.2.1, r.2.2⟩ :: (procEvents s.bounce_ms r.1 s.handlers es).2) := rfl
      rw [hstep, hproc]
      have hb2 : s2.bounce_ms = s.bounce_ms := rfl
      have hl2 : s2.last_ticks = r.1 := rfl
      have hh2 : s2.handlers = s.handlers := rfl
      rw [hb2, hl2, hh2] at ih1 ih2
      exact ⟨by rw [ih1], by rw [ih2], ih3, ih4, by rw [ih5], by rw [ih6]⟩

/-! Lemmas about the per-event debounce step. -/

theorem handleEvent_accepted (b : Int) (lt hs : Nat → Option Nat) (t p : Nat)
    (h : (handleEvent b lt hs t p).2.1 = true) :
    (handleEvent b lt hs t p).1 = dUpdate lt p t ∧
    (handleEvent b lt hs t p).2.2 = hs p := by
  match hlt : lt p with
  | none => simp [handleEvent, hlt]
  | some last =>
    by_cases hd : ticks_diff t last < b
    · simp [handleEvent, hlt, hd] at h
    · simp [handleEvent, hlt, hd]

theorem handleEvent_bounce (b : Int) (lt hs : Nat → Option Nat) (t1 t2 p : Nat)
    (hlast : lt p = some t1) (hd : ticks_diff t2 t1 < b) :
    handleEvent b lt hs t2 p = (lt, false, none) := by
  simp [handleEvent, hlast, hd]

theorem handleEvent_pass (b : Int) (lt hs : Nat → Option Nat) (t1 t2 p : Nat)
    (hlast : lt p = some t1) (hd : b ≤ ticks_diff t2 t1) :
    handleEvent b lt hs t2 p = (dUpdate lt p t2, true, hs p) := by
  have hnd : ¬ ticks_diff t2 t1 < b := not_lt.mpr hd
  simp [handleEvent, hlast, hnd]

theorem dUpdate_same (lt : Nat → Option Nat) (p v : Nat) : dUpdate lt p v p = some v := by
  simp [dUpdate]

theorem procEvents_pairs (b : Int) (hs : Nat → Option Nat) :
    ∀ (es : List (Nat × Nat)) (lt : Nat → Option Nat),
    (procEvents b lt hs es).2.map (fun e => (e.ticks, e.pin)) = es := by
  intro es
  induction es with
  | nil => intro lt; rfl
  | cons e es ih =>
    intro lt
    obtain ⟨t, p⟩ := e
    show ((t, p) : Nat × Nat) ::
        (procEvents b (handleEvent b lt hs t p).1 hs es).2.map
          (fun e => (e.ticks, e.pin)) = (t, p) :: es
    rw [ih]

theorem procEvents_unhandled (b : Int) (hs : Nat → Option Nat) :
    ∀ (es : List (Nat × Nat)) (lt : Nat → Option Nat) (e : DEvent),
    e ∈ (procEvents b lt hs es).2 → hs e.pin = none → e.invoked = none := by
  intro es
  induction es with
  | nil =>
    intro lt e he
    simp [procEvents] at he
  | cons ev es ih =>
    intro lt e he hnone
    obtain ⟨t, p⟩ := ev
    have hmem : e = (⟨t, p, (handleEvent b lt hs t p).2.1,
        (handleEvent b lt hs t p).2.2⟩ : DEvent) ∨
        e ∈ (procEvents b (handleEvent b lt hs t p).1 hs es).2 := by
      simpa [procEvents] using he
    rcases hmem with hhead | htail
    · subst hhead
      show (handleEvent b lt hs t p).2.2 = none
      match hlt : lt p with
      | none => simpa [handleEvent, hlt] using hnone
      | some last =>
        by_cases hd : ticks_diff t last < b
        · simp [handleEvent, hlt, hd]
        · simpa [handleEvent, hlt, hd] using hnone
    · exact ih (handleEvent b lt hs t p).1 e htail hnone

/-! One dispatch iteration pops exactly the head pair and keeps the queue
invariant for the remaining events; the debounce step may replace the
last_ticks map arbitrarily without affecting the queue bookkeeping. -/

theorem pop_preserves (cap : Nat) (s : BadgeButtons) (e : Nat × Nat)
    (es : List (Nat × Nat)) (hq : QInv s cap (e :: es)) :
    s.queue.getD 0 0 = e.1 ∧ s.queue.getD 1 0 = e.2 ∧
    ∀ lt2 : Nat → Option Nat,
      QInv { s with
          queue := shiftQueue s.queue
          queue_pos := s.queue_pos - 2
          last_ticks := lt2 } cap es := by
  obtain ⟨t, p⟩ := e
  obtain ⟨h1, h2, h3, h4⟩ := hq
  simp only [List.length_cons] at h2
  have htake : s.queue.take (2 * es.length + 2) = t :: p :: entriesFlat es := by
    rw [show 2 * es.length + 2 = s.queue_pos by omega, h4]
    rfl
  obtain ⟨q', hqeq, hqtake⟩ := queue_decomp s.queue (2 * es.length) t p
    (entriesFlat es) htake
  have hq'len : q'.length + 2 = 2 * cap := by
    rw [hqeq] at h1
    simpa using h1
  have hshift : shiftQueue s.queue = q' ++ s.queue.drop (s.queue.length - 2) := by
    rw [shiftQueue, hqeq]
    rfl
  refine ⟨by rw [hqeq]; rfl, by rw [hqeq]; rfl, fun lt2 => ⟨?_, ?_, ?_, ?_⟩⟩
  · show (shiftQueue s.queue).length = 2 * cap
    rw [shiftQueue_length s.queue (by omega)]
    exact h1
  · show s.queue_pos - 2 = 2 * es.length
    omega
  · show s.queue_pos - 2 ≤ (shiftQueue s.queue).length
    rw [shiftQueue_length s.queue (by omega)]
    omega
  · show (shiftQueue s.queue).take (s.queue_pos - 2) = entriesFlat es
    rw [hshift, show s.queue_pos - 2 = 2 * es.length by omega,
      List.take_append_of_le_length (by omega), hqtake]

/-! The ten claim theorems. -/

/-- C1: for two drained events for the same button with timestamps t1 then
t2, where t1 was accepted (so LastPressTable[button] = t1): if the
wrap-safe difference ticks_diff t2 t1 is strictly below bounce_ms the
dispatcher discards t2 and leaves last_ticks unchanged; if it is at least
bounce_ms the second event is also accepted, and each accepted event sets
last_ticks[button] to its own timestamp. -/
theorem claim_C1_debounce_window (b : Int) (lt hs : Nat → Option Nat) (p t1 t2 : Nat)
    (hacc : (handleEvent b lt hs t1 p).2.1 = true) :
    (handleEvent b lt hs t1 p).1 p = some t1 ∧
    (ticks_diff t2 t1 < b →
      handleEvent b (handleEvent b lt hs t1 p).1 hs t2 p
        = ((handleEvent b lt hs t1 p).1, false, none)) ∧
    (b ≤ ticks_diff t2 t1 →
      (handleEvent b (handleEvent b lt hs t1 p).1 hs t2 p).2.1 = true ∧
      (handleEvent b (handleEvent b lt hs t1 p).1 hs t2 p).1 p = some t2) := by
  obtain ⟨hupd, hinv⟩ := handleEvent_accepted b lt hs t1 p hacc
  have hp1 : (handleEvent b lt hs t1 p).1 p = some t1 := by
    rw [hupd]
    exact dUpdate_same lt p t1
  refine ⟨hp1, fun hd => handleEvent_bounce b _ hs t1 t2 p hp1 hd, fun hd => ?_⟩
  rw [handleEvent_pass b _ hs t1 t2 p hp1 hd]
  exact ⟨rfl, dUpdate_same _ p t2⟩

/-- Witness for C1 at bounce 250 with empty tables on pin 12, t1 = 0,
t2 = 10. -/
theorem claim_C1_witness :
    (handleEvent 250 (fun _ => none) (fun _ => none) 0 12).1 12 = some 0 ∧
    (ticks_diff 10 0 < 250 →
      handleEvent 250 (handleEvent 250 (fun _ => none) (fun _ => none) 0 12).1
          (fun _ => none) 10 12
        = ((handleEvent 250 (fun _ => none) (fun _ => none) 0 12).1, false, none)) ∧
    (250 ≤ ticks_diff 10 0 →
      (handleEvent 250 (handleEvent 250 (fun _ => none) (fun _ => none) 0 12).1
          (fun _ => none) 10 12).2.1 = true ∧
      (handleEvent 250 (handleEvent 250 (fun _ => none) (fun _ => none) 0 12).1
          (fun _ => none) 10 12).1 12 = some 10) :=
  claim_C1_debounce_window 250 (fun _ => none) (fun _ => none) 12 0 10 (by decide)

/-- C2: starting from any state whose queue is empty, a sequence of pushes
that does not exceed the capacity all succeed, and the dispatcher then
drains exactly the pushed (timestamp, pin) pairs in push order, oldest
first, terminating with an empty queue. -/
theorem claim_C2_fifo_order (cap : Nat) (s0 : BadgeButtons) (es : List (Nat × Nat))
    (hq : QInv s0 cap []) (hlen : es.length ≤ cap) :
    (pressedAll s0 es).2 = List.replicate es.length (true, true) ∧
    (dispatch (pressedAll s0 es).1).2.map (fun e => (e.ticks, e.pin)) = es ∧
    (dispatch (pressedAll s0 es).1).1.queue_pos = 0 := by
  obtain ⟨hq1, hall, hlt, hhs, hb⟩ := pressedAll_ok es [] s0 cap hq (by simpa using hlen)
  rw [List.nil_append] at hq1
  have hfuel : es.length ≤ (pressedAll s0 es).1.queue_pos := by
    obtain ⟨_, h2, _, _⟩ := hq1
    omega
  obtain ⟨d1, d2, d3, d4, d5, d6⟩ :=
    dispatch_drain es (pressedAll s0 es).1.queue_pos (pressedAll s0 es).1 cap hq1 hfuel
  refine ⟨hall, ?_, d3⟩
  show (dispatchAux (pressedAll s0 es).1.queue_pos (pressedAll s0 es).1).2.map
    (fun e => (e.ticks, e.pin)) = es
  rw [d1, procEvents_pairs]

/-- Witness for C2: capacity 8, two pushes from the fresh state. -/
theorem claim_C2_witness :
    (pressedAll (badgeInit 250 8) [(0, 12), (300, 13)]).2
      = List.replicate 2 (true, true) ∧
    (dispatch (pressedAll (badgeInit 250 8) [(0, 12), (300, 13)]).1).2.map
      (fun e => (e.ticks, e.pin)) = [(0, 12), (300, 13)] ∧
    (dispatch (pressedAll (badgeInit 250 8) [(0, 12), (300, 13)]).1).1.queue_pos = 0 :=
  claim_C2_fifo_order 8 (badgeInit 250 8) [(0, 12), (300, 13)] (by decide) (by decide)

/-- C3: pushing into a full queue drops the new entry, leaving the state
completely unchanged (so nothing blocks and no queued entry is
corrupted), and a subsequent drain still yields the previously queued
entries in their original order. -/
theorem claim_C3_full_drop (cap : Nat) (s : BadgeButtons) (es : List (Nat × Nat))
    (t p : Nat) (hq : QInv s cap es) (hfull : es.length = cap) :
    pressed s t p = (s, false, false) ∧
    (dispatch s).2.map (fun e => (e.ticks, e.pin)) = es ∧
    (dispatch s).1.queue_pos = 0 := by
  obtain ⟨h1, h2, h3, h4⟩ := hq
  have hfuel : es.length ≤ s.queue_pos := by omega
  obtain ⟨d1, d2, d3, d4, d5, d6⟩ :=
    dispatch_drain es s.queue_pos s cap ⟨h1, h2, h3, h4⟩ hfuel
  refine ⟨pressed_full s t p (by omega), ?_, d3⟩
  show (dispatchAux s.queue_pos s).2.map (fun e => (e.ticks, e.pin)) = es
  rw [d1, procEvents_pairs]

/-- Witness for C3: capacity 2 with (0, pin 12) and (1, pin 13) queued; the
push of (2, pin 14) fails and the drain yields exactly the two entries. -/
theorem claim_C3_witness :
    pressed (pressedAll (badgeInit 250 2) [(0, 12), (1, 13)]).1 2 14
      = ((pressedAll (badgeInit 250 2) [(0, 12), (1, 13)]).1, false, false) ∧
    (dispatch (pressedAll (badgeInit 250 2) [(0, 12), (1, 13)]).1).2.map
      (fun e => (e.ticks, e.pin)) = [(0, 12), (1, 13)] ∧
    (dispatch (pressedAll (badgeInit 250 2) [(0, 12), (1, 13)]).1).1.queue_pos = 0 :=
  claim_C3_full_drop 2 (pressedAll (badgeInit 250 2) [(0, 12), (1, 13)]).1
    [(0, 12), (1, 13)] 2 14 (by decide) (by decide)

/-- C4: the debounce elapsed-time computation is wrap-safe: whenever the
physical elapsed time d is below half the tick period, ticks_diff of the
(possibly wrapped) later timestamp against the earlier one equals d
exactly, so the accept/bounce comparison against any bounce window agrees
with physical time; and for every pair of tick values the result is a
well-defined value in [-TICKS_PERIOD/2, TICKS_PERIOD/2), never an error. -/
theorem claim_C4_wrap_safe :
    (∀ (t1 d : Nat) (b : Int), t1 < 1073741824 → d < 536870912 →
      ticks_diff ((t1 + d) % 1073741824) t1 = (d : Int) ∧
      (ticks_diff ((t1 + d) % 1073741824) t1 < b ↔ (d : Int) < b)) ∧
    (∀ a b : Nat, -536870912 ≤ ticks_diff a b ∧ ticks_diff a b < 536870912) := by
  constructor
  · intro t1 d b ht hd
    have he : ticks_diff ((t1 + d) % 1073741824) t1 = (d : Int) := by
      unfold ticks_diff TICKS_PERIOD
      omega
    rw [he]
    exact ⟨rfl, Iff.rfl⟩
  · intro a b
    unfold ticks_diff TICKS_PERIOD
    constructor <;> omega

/-- Witness for C4: the clock wraps from 100 ticks before the limit to
tick 50; the computed elapsed time is exactly 150, below the 250 ms
bounce window. -/
theorem claim_C4_witness :
    ticks_diff ((1073741724 + 150) % 1073741824) 1073741724 = (150 : Int) ∧
    (ticks_diff ((1073741724 + 150) % 1073741824) 1073741724 < 250 ↔
      ((150 : Nat) : Int) < 250) :=
  claim_C4_wrap_safe.1 1073741724 150 250 (by decide) (by decide)

/-- C5: capacity 8, bounce window 250, empty last-press table, handler 0
registered for BUTTON_A; pushing (0, A), (10, A), (300, A) and running the
dispatcher accepts t 0, discards t 10, accepts t 300, invokes the handler
exactly twice and leaves last_ticks[A] = 300. -/
theorem claim_C5_scenario :
    (pressedAll (setitem (badgeInit 250 8) BUTTON_A 0)
        [(0, BUTTON_A), (10, BUTTON_A), (300, BUTTON_A)]).2
      = List.replicate 3 (true, true) ∧
    (dispatch (pressedAll (setitem (badgeInit 250 8) BUTTON_A 0)
        [(0, BUTTON_A), (10, BUTTON_A), (300, BUTTON_A)]).1).2
      = [⟨0, BUTTON_A, true, some 0⟩, ⟨10, BUTTON_A, false, none⟩,
          ⟨300, BUTTON_A, true, some 0⟩] ∧
    (dispatch (pressedAll (setitem (badgeInit 250 8) BUTTON_A 0)
        [(0, BUTTON_A), (10, BUTTON_A), (300, BUTTON_A)]).1).1.last_ticks BUTTON_A
      = some 300 ∧
    ((dispatch (pressedAll (setitem (badgeInit 250 8) BUTTON_A 0)
        [(0, BUTTON_A), (10, BUTTON_A), (300, BUTTON_A)]).1).2.filterMap
      (fun e => e.invoked)).length = 2 := by
  decide

/-- C6: the dispatcher drains every queued event even when buttons have no
registered handler (no error, no early halt), a drained event whose
button has no handler invokes nothing, and deleting the handler of one
registered button leaves every other button's handler entry and the whole
last-press table unchanged. -/
theorem claim_C6_unknown_button (cap : Nat) (s : BadgeButtons)
    (es : List (Nat × Nat)) (k h k' : Nat) (hq : QInv s cap es)
    (hreg : s.handlers k = some h) (hne : k' ≠ k) :
    (dispatch s).2.length = es.length ∧
    (∀ e, e ∈ (dispatch s).2 → s.handlers e.pin = none → e.invoked = none) ∧
    (∃ s', delitem s k = some s' ∧ s'.handlers k = none ∧
      s'.handlers k' = s.handlers k' ∧ s'.last_ticks = s.last_ticks ∧
      s'.queue = s.queue ∧ s'.queue_pos = s.queue_pos) := by
  have hfuel : es.length ≤ s.queue_pos := by
    obtain ⟨_, h2, _, _⟩ := hq
    omega
  obtain ⟨d1, d2, d3, d4, d5, d6⟩ := dispatch_drain es s.queue_pos s cap hq hfuel
  refine ⟨?_, ?_, ?_⟩
  · show (dispatchAux s.queue_pos s).2.length = es.length
    rw [d1]
    have hpairs := procEvents_pairs s.bounce_ms s.handlers es s.last_ticks
    have hlen := congrArg List.length hpairs
    rwa [List.length_map] at hlen
  · intro e he hnone
    rw [show (dispatch s).2 = (dispatchAux s.queue_pos s).2 from rfl, d1] at he
    exact procEvents_unhandled s.bounce_ms s.handlers es s.last_ticks e he hnone
  · refine ⟨{ s with handlers := fun x => if x = k then none else s.handlers x },
      ?_, by simp, by simp [hne], rfl, rfl, rfl⟩
    simp [delitem, hreg]

/-- Witness for C6: empty queue, handler 0 registered on pin 12, delete
pin 12 and look at pin 13. -/
theorem claim_C6_witness :
    (dispatch (setitem (badgeInit 250 8) 12 0)).2.length = 0 ∧
    (∀ e, e ∈ (dispatch (setitem (badgeInit 250 8) 12 0)).2 →
      (setitem (badgeInit 250 8) 12 0).handlers e.pin = none → e.invoked = none) ∧
    (∃ s', delitem (setitem (badgeInit 250 8) 12 0) 12 = some s' ∧
      s'.handlers 12 = none ∧
      s'.handlers 13 = (setitem (badgeInit 250 8) 12 0).handlers 13 ∧
      s'.last_ticks = (setitem (badgeInit 250 8) 12 0).last_ticks ∧
      s'.queue = (setitem (badgeInit 250 8) 12 0).queue ∧
      s'.queue_pos = (setitem (badgeInit 250 8) 12 0).queue_pos) :=
  claim_C6_unknown_button 8 (setitem (badgeInit 250 8) 12 0) [] 12 0 13
    (by decide) (by decide) (by decide)

/-- C7 as stated is false on the code: for a button with no registered
handler the subscript get operation does not yield an absent/None result
but raises KeyError, shown here at a fresh BadgeButtons state and
pin 12. -/
theorem claim_C7_counterexample :
    ¬ ∀ (s : BadgeButtons) (k : Nat), s.handlers k = none →
      getitem s k ≠ Lookup.keyError := by
  intro hall
  exact hall (badgeInit 250 8) 12 rfl rfl

/-- C7 amended: looking up a button with no registered handler through the
subscript get signals a lookup failure (KeyError); absence is handled as
a first-class valid state only inside the dispatcher, whose per-event
delivery step invokes no handler for such a button instead of failing. -/
theorem claim_C7_get_keyError (s : BadgeButtons) (k : Nat)
    (habs : s.handlers k = none) :
    getitem s k = Lookup.keyError ∧
    (∀ (b : Int) (lt : Nat → Option Nat) (t : Nat),
      (handleEvent b lt s.handlers t k).2.2 = none) := by
  refine ⟨by simp [getitem, habs], fun b lt t => ?_⟩
  match hlt : lt k with
  | none => simp [handleEvent, hlt, habs]
  | some last =>
    by_cases hd : ticks_diff t last < b
    · simp [handleEvent, hlt, hd]
    · simp [handleEvent, hlt, hd, habs]

/-- Witness for C7 amended: the fresh state has no handler on pin 12. -/
theorem claim_C7_witness :
    getitem (badgeInit 250 8) 12 = Lookup.keyError ∧
    (∀ (b : Int) (lt : Nat → Option Nat) (t : Nat),
      (handleEvent b lt (badgeInit 250 8).handlers t 12).2.2 = none) :=
  claim_C7_get_keyError (badgeInit 250 8) 12 (by decide)

/-- C8: under the queue representation invariant, queue_pos is even and
bounded by 2 * capacity; a push below capacity succeeds and extends the
pending entries, a push at capacity leaves the state untouched; one
dispatch iteration reads exactly the head pair and re-establishes the
invariant for the tail regardless of how the debounce step rewrites
last_ticks; and a full drain delivers exactly the pending entries, so the
data beyond queue_pos (including the stale duplicate left by the shift)
is never delivered. -/
theorem claim_C8_queue_invariant (cap : Nat) (s : BadgeButtons)
    (es : List (Nat × Nat)) (t p : Nat) (hq : QInv s cap es) :
    (s.queue_pos % 2 = 0 ∧ s.queue_pos ≤ 2 * cap) ∧
    (es.length < cap →
      (pressed s t p).2 = (true, true) ∧
      QInv (pressed s t p).1 cap (es ++ [(t, p)])) ∧
    (cap ≤ es.length → pressed s t p = (s, false, false)) ∧
    (∀ e es', es = e :: es' →
      s.queue.getD 0 0 = e.1 ∧ s.queue.getD 1 0 = e.2 ∧
      ∀ lt2 : Nat → Option Nat,
        QInv { s with
            queue := shiftQueue s.queue
            queue_pos := s.queue_pos - 2
            last_ticks := lt2 } cap es') ∧
    (dispatch s).2.map (fun e => (e.ticks, e.pin)) = es := by
  obtain ⟨h1, h2, h3, h4⟩ := hq
  refine ⟨⟨by omega, by omega⟩, fun hroom => ?_, fun hfull => ?_, ?_, ?_⟩
  · obtain ⟨heq, hq'⟩ := pressed_push s cap es t p ⟨h1, h2, h3, h4⟩ hroom
    exact ⟨by rw [heq], hq'⟩
  · exact pressed_full s t p (by omega)
  · intro e es' hes
    subst hes
    exact pop_preserves cap s e es' ⟨h1, h2, h3, h4⟩
  · have hfuel : es.length ≤ s.queue_pos := by omega
    obtain ⟨d1, d2, d3, d4, d5, d6⟩ :=
      dispatch_drain es s.queue_pos s cap ⟨h1, h2, h3, h4⟩ hfuel
    show (dispatchAux s.queue_pos s).2.map (fun e => (e.ticks, e.pin)) = es
    rw [d1, procEvents_pairs]

/-- Witness for C8: capacity 2 with the single event (0, pin 12) queued
and a further push of (1, pin 13). -/
theorem claim_C8_witness :
    ((pressedAll (badgeInit 250 2) [(0, 12)]).1.queue_pos % 2 = 0 ∧
      (pressedAll (badgeInit 250 2) [(0, 12)]).1.queue_pos ≤ 2 * 2) ∧
    (([((0 : Nat), (12 : Nat))].length < 2 →
      (pressed (pressedAll (badgeInit 250 2) [(0, 12)]).1 1 13).2 = (true, true) ∧
      QInv (pressed (pressedAll (badgeInit 250 2) [(0, 12)]).1 1 13).1 2
        ([(0, 12)] ++ [(1, 13)])) ∧
    (2 ≤ [((0 : Nat), (12 : Nat))].length →
      pressed (pressedAll (badgeInit 250 2) [(0, 12)]).1 1 13
        = ((pressedAll (badgeInit 250 2) [(0, 12)]).1, false, false)) ∧
    (∀ e es', [((0 : Nat), (12 : Nat))] = e :: es' →
      (pressedAll (badgeInit 250 2) [(0, 12)]).1.queue.getD 0 0 = e.1 ∧
      (pressedAll (badgeInit 250 2) [(0, 12)]).1.queue.getD 1 0 = e.2 ∧
      ∀ lt2 : Nat → Option Nat,
        QInv { (pressedAll (badgeInit 250 2) [(0, 12)]).1 with
            queue := shiftQueue (pressedAll (badgeInit 250 2) [(0, 12)]).1.queue
            queue_pos := (pressedAll (badgeInit 250 2) [(0, 12)]).1.queue_pos - 2
            last_ticks := lt2 } 2 es') ∧
    (dispatch (pressedAll (badgeInit 250 2) [(0, 12)]).1).2.map
      (fun e => (e.ticks, e.pin)) = [(0, 12)]) :=
  ⟨(claim_C8_queue_invariant 2 (pressedAll (badgeInit 250 2) [(0, 12)]).1
      [(0, 12)] 1 13 (by decide)).1,
    (claim_C8_queue_invariant 2 (pressedAll (badgeInit 250 2) [(0, 12)]).1
      [(0, 12)] 1 13 (by decide)).2⟩

/-- C9: an accepted event records its timestamp in last_ticks before the
handler lookup, so a button with no registered handler still gets its
accepted timestamp recorded while no handler is invoked, and a later
same-button event within the bounce window of that accepted-but-unhandled
event is discarded. -/
theorem claim_C9_record_before_lookup (b : Int) (lt hs : Nat → Option Nat)
    (p t1 t2 : Nat) (hnoh : hs p = none)
    (hacc : (handleEvent b lt hs t1 p).2.1 = true) :
    (handleEvent b lt hs t1 p).1 p = some t1 ∧
    (handleEvent b lt hs t1 p).2.2 = none ∧
    (ticks_diff t2 t1 < b →
      handleEvent b (handleEvent b lt hs t1 p).1 hs t2 p
        = ((handleEvent b lt hs t1 p).1, false, none)) := by
  obtain ⟨hupd, hinv⟩ := handleEvent_accepted b lt hs t1 p hacc
  have hp1 : (handleEvent b lt hs t1 p).1 p = some t1 := by
    rw [hupd]
    exact dUpdate_same lt p t1
  exact ⟨hp1, by rw [hinv, hnoh],
    fun hd => handleEvent_bounce b _ hs t1 t2 p hp1 hd⟩

/-- Witness for C9 on pin 12 with no handlers, t1 = 0, t2 = 10. -/
theorem claim_C9_witness :
    (handleEvent 250 (fun _ => none) (fun _ => none) 0 12).1 12 = some 0 ∧
    (handleEvent 250 (fun _ => none) (fun _ => none) 0 12).2.2 = none ∧
    (ticks_diff 10 0 < 250 →
      handleEvent 250 (handleEvent 250 (fun _ => none) (fun _ => none) 0 12).1
          (fun _ => none) 10 12
        = ((handleEvent 250 (fun _ => none) (fun _ => none) 0 12).1, false, none)) :=
  claim_C9_record_before_lookup 250 (fun _ => none) (fun _ => none) 12 0 10
    (by decide) (by decide)

/-- C10: the interrupt producer requests a dispatcher wake exactly when
the push succeeded, and on a full queue the push (and any further pushes
while it stays full) leaves the state unchanged and never schedules the
dispatcher. -/
theorem claim_C10_schedule_iff_push (s : BadgeButtons) (t p : Nat)
    (es : List (Nat × Nat)) :
    (pressed s t p).2.2 = (pressed s t p).2.1 ∧
    (s.queue.length ≤ s.queue_pos →
      pressed s t p = (s, false, false) ∧
      pressedAll s es = (s, List.replicate es.length (false, false))) := by
  refine ⟨?_, fun hfull => ⟨pressed_full s t p hfull, pressedAll_full es s hfull⟩⟩
  unfold pressed
  by_cases hg : s.queue_pos < s.queue.length
  · rw [if_pos hg]
  · rw [if_neg hg]

/-- Witness for C10: capacity 1 with the queue already full; pushing
(5, pin 13) and then the batch [(6, pin 14)] is dropped without any
wake. -/
theorem claim_C10_witness :
    pressed (pressedAll (badgeInit 250 1) [(0, 12)]).1 5 13
      = ((pressedAll (badgeInit 250 1) [(0, 12)]).1, false, false) ∧
    pressedAll (pressedAll (badgeInit 250 1) [(0, 12)]).1 [(6, 14)]
      = ((pressedAll (badgeInit 250 1) [(0, 12)]).1,
          List.replicate 1 (false, false)) :=
  (claim_C10_schedule_iff_push (pressedAll (badgeInit 250 1) [(0, 12)]).1 5 13
    [(6, 14)]).2 (by decide)

end Badge
